/-
Verification of the type-draw collaborative typing canvas.

The development shallowly embeds the TypeScript sources:
  * the shared data model (types.ts),
  * the multi-user typing client (TypeCanvas with addCharToCanvas, plus the
    angle-snap variant of handleKeyDown and the single-user variant),
  * the socket hook (usePartySocket: setLines and the message handler),
  * the PartyKit authority (TypeDrawServer.onMessage / onConnect).
Coordinates are real numbers; JavaScript Math.sqrt / Math.atan2 / Math.cos /
Math.sin are modelled by their exact real counterparts.  Randomness
(Math.random in id generation and palette choice) is modelled by explicit
oracle parameters: fresh ids are passed in, and randomChoice takes the
random outcome as a natural-number index.
-/
import Mathlib

namespace TypeDraw

noncomputable section

open Classical

/-- Planar point, from types.ts Point. -/
structure Point where
  x : ℝ
  y : ℝ

/-- One placed character, from types.ts Char; x,y are offsets relative to the
owning line's origin. -/
structure Char where
  id : String
  value : String
  x : ℝ
  y : ℝ

/-- An owned line of characters, from types.ts Line. -/
structure Line where
  id : String
  chars : List Char
  x : ℝ
  y : ℝ
  userId : String
  color : String
  fontSize : ℕ
  fontFamily : String

/-- A participant, from types.ts User. -/
structure User where
  id : String
  color : String
  fontSize : ℕ
  fontFamily : String
  cursor : Point

/-- The two interaction modes, from types.ts AppMode. -/
inductive AppMode where
  | TYPING
  | NAVIGATION

/-- Client-to-authority wire messages, from types.ts ClientMessage. -/
inductive ClientMsg where
  | cursor (cursor : Point)
  | lines (lines : List Line)
  | addLine (line : Line)
  | updateLine (line : Line)
  | deleteLines (lineIds : List String)

/-- Authority-to-client wire messages, from types.ts ServerMessage. -/
inductive ServerMsg where
  | init (userId : String) (user : User) (users : List User) (lines : List Line)
  | userJoined (user : User)
  | userLeft (userId : String)
  | cursor (userId : String) (cursor : Point)
  | sync (lines : List Line)
  | addLine (line : Line)
  | updateLine (line : Line)
  | deleteLines (lineIds : List String)

/-- One room.broadcast call of the authority: the message together with the
connection ids excluded from the broadcast. -/
structure Broadcast where
  msg : ServerMsg
  exclude : List String

/-- Canonical room state held by the authority (TypeDrawServer.state).  The
users record is modelled as a list of participants. -/
structure RoomState where
  users : List User
  lines : List Line

/-- LETTER_SPACING = 12, the distance between letters. -/
def LETTER_SPACING : ℝ := 12

/-- SNAP_THRESHOLD = PI / 12 of the angle-snap TypeCanvas variant. -/
def SNAP_THRESHOLD : ℝ := Real.pi / 12

/-- JavaScript Math.atan2(y, x) over the reals (signed zeros aside). -/
def atan2 (y x : ℝ) : ℝ :=
  if 0 < x then Real.arctan (y / x)
  else if x < 0 then
    if 0 ≤ y then Real.arctan (y / x) + Real.pi
    else Real.arctan (y / x) - Real.pi
  else
    if 0 < y then Real.pi / 2
    else if y < 0 then -(Real.pi / 2)
    else 0

/-- The angle-snap step of the angle-snap handleKeyDown variant: an angle
within SNAP_THRESHOLD of horizontal is replaced by exactly 0 or PI. -/
def snapAngle (angle dx : ℝ) : ℝ :=
  if |angle| < SNAP_THRESHOLD then 0
  else if |angle - Real.pi| < SNAP_THRESHOLD ∨ |angle + Real.pi| < SNAP_THRESHOLD then
    if 0 ≤ dx then 0 else Real.pi
  else angle

/-- Offset of a line's tail: the last char's offset, or (0,0) for an empty
line (the startX/startY computation shared by all handleKeyDown variants). -/
def tailOffset (line : Line) : Point :=
  match line.chars.getLast? with
  | some c => ⟨c.x, c.y⟩
  | none => ⟨0, 0⟩

/-- Euclidean distance from the line's world-space head (origin plus tail
offset) to the target, as computed by addCharToCanvas. -/
def headDistance (line : Line) (target : Point) : ℝ :=
  let start := tailOffset line
  let dx := target.x - (line.x + start.x)
  let dy := target.y - (line.y + start.y)
  Real.sqrt (dx * dx + dy * dy)

/-- The line.userId === user?.id ownership test used throughout the
multi-user client. -/
def isOwn (user : Option User) (l : Line) : Bool :=
  match user with
  | some u => l.userId == u.id
  | none => false

/-- createLine of the multi-user TypeCanvas: a fresh empty line at (x,y)
carrying the current user's identity and style (with the code's fallbacks
when no user is connected).  The fresh random id is the parameter newId. -/
def createLine (newId : String) (x y : ℝ) (user : Option User) : Line :=
  { id := newId, chars := [], x := x, y := y
    userId := match user with | some u => u.id | none => "local"
    color := match user with | some u => u.color | none => "#000000"
    fontSize := match user with | some u => u.fontSize | none => 16
    fontFamily := match user with | some u => u.fontFamily | none => "sans-serif" }

/-- Messages emitted by the setLines wrapper of usePartySocket: storing a new
line list also sends a bulk own-lines resync when a current user exists. -/
def setLines (user : Option User) (newLines : List Line) : List ClientMsg :=
  match user with
  | some u => [ClientMsg.lines (newLines.filter (fun l => l.userId == u.id))]
  | none => []

/-- Result of one typing-mode client step: the stored line list, the outbound
messages in emission order, and the new active-line id. -/
structure StepResult where
  lines : List Line
  msgs : List ClientMsg
  activeLineId : Option String

/-- The new-line branch shared by addCharToCanvas and the angle-snap variant:
create a line at the target, place the first character at offset (0,0),
store via setLines and send addLine. -/
def startNewLineWithChar (user : Option User) (curLines : List Line) (target : Point)
    (charValue : String) (newLineId newCharId : String) : StepResult :=
  let newLine := createLine newLineId target.x target.y user
  let finalChar : Char := ⟨newCharId, charValue, 0, 0⟩
  let lineWithChar := { newLine with chars := [finalChar] }
  let newLines := curLines ++ [lineWithChar]
  { lines := newLines
    msgs := setLines user newLines ++ [ClientMsg.addLine lineWithChar]
    activeLineId := some newLineId }

/-- The existing-line branch of addCharToCanvas: skip when the line is
non-empty and the target is closer than LETTER_SPACING, otherwise append a
character LETTER_SPACING along the atan2 direction to the target. -/
def appendCharToLine (user : Option User) (curLines : List Line) (target : Point)
    (charValue : String) (aid : String) (line : Line) (newCharId : String) : StepResult :=
  let start := tailOffset line
  let dx := target.x - (line.x + start.x)
  let dy := target.y - (line.y + start.y)
  if 0 < line.chars.length ∧ Real.sqrt (dx * dx + dy * dy) < LETTER_SPACING then
    { lines := curLines, msgs := [], activeLineId := some aid }
  else
    let angle := atan2 dy dx
    let newCharX := start.x + Real.cos angle * LETTER_SPACING
    let newCharY := start.y + Real.sin angle * LETTER_SPACING
    let finalChar : Char := ⟨newCharId, charValue,
      if line.chars.length = 0 then 0 else newCharX,
      if line.chars.length = 0 then 0 else newCharY⟩
    let updatedLine := { line with chars := line.chars ++ [finalChar] }
    let newLines := curLines.map (fun l => if l.id == aid then updatedLine else l)
    { lines := newLines
      msgs := setLines user newLines ++ [ClientMsg.updateLine updatedLine]
      activeLineId := some aid }

/-- addCharToCanvas of the multi-user TypeCanvas: continue typing on the
active line only when it exists and is owned by the current user, otherwise
start a new line at the target.  Fresh random ids are parameters. -/
def addCharToCanvas (user : Option User) (curLines : List Line) (target : Point)
    (charValue : String) (activeId : Option String) (newLineId newCharId : String) :
    StepResult :=
  match activeId with
  | some aid =>
    match curLines.find? (fun l => l.id == aid) with
    | some line =>
      if isOwn user line then appendCharToLine user curLines target charValue aid line newCharId
      else startNewLineWithChar user curLines target charValue newLineId newCharId
    | none => startNewLineWithChar user curLines target charValue newLineId newCharId
  | none => startNewLineWithChar user curLines target charValue newLineId newCharId

/-- The existing-line branch of the angle-snap handleKeyDown variant: same as
appendCharToLine but the direction angle is first passed through snapAngle. -/
def appendCharToLineSnap (user : Option User) (curLines : List Line) (target : Point)
    (charValue : String) (aid : String) (line : Line) (newCharId : String) : StepResult :=
  let start := tailOffset line
  let dx := target.x - (line.x + start.x)
  let dy := target.y - (line.y + start.y)
  if 0 < line.chars.length ∧ Real.sqrt (dx * dx + dy * dy) < LETTER_SPACING then
    { lines := curLines, msgs := [], activeLineId := some aid }
  else
    let angle := snapAngle (atan2 dy dx) dx
    let newCharX := start.x + Real.cos angle * LETTER_SPACING
    let newCharY := start.y + Real.sin angle * LETTER_SPACING
    let finalChar : Char := ⟨newCharId, charValue,
      if line.chars.length = 0 then 0 else newCharX,
      if line.chars.length = 0 then 0 else newCharY⟩
    let updatedLine := { line with chars := line.chars ++ [finalChar] }
    let newLines := curLines.map (fun l => if l.id == aid then updatedLine else l)
    { lines := newLines
      msgs := setLines user newLines ++ [ClientMsg.updateLine updatedLine]
      activeLineId := some aid }

/-- Typing a printable character in the angle-snap handleKeyDown variant. -/
def handleKeyDownCharSnap (user : Option User) (curLines : List Line) (target : Point)
    (charValue : String) (activeId : Option String) (newLineId newCharId : String) :
    StepResult :=
  match activeId with
  | some aid =>
    match curLines.find? (fun l => l.id == aid) with
    | some line =>
      if isOwn user line then appendCharToLineSnap user curLines target charValue aid line newCharId
      else startNewLineWithChar user curLines target charValue newLineId newCharId
    | none => startNewLineWithChar user curLines target charValue newLineId newCharId
  | none => startNewLineWithChar user curLines target charValue newLineId newCharId

/-- Line shape of the single-user TypeCanvas variant, which predates the
multi-user fields: id, chars and origin only. -/
structure SULine where
  id : String
  chars : List Char
  x : ℝ
  y : ℝ

/-- createLine of the single-user variant. -/
def createLineSU (newId : String) (x y : ℝ) : SULine :=
  { id := newId, chars := [], x := x, y := y }

/-- Tail offset (startX/startY) for the single-user line shape. -/
def tailOffsetSU (line : SULine) : Point :=
  match line.chars.getLast? with
  | some c => ⟨c.x, c.y⟩
  | none => ⟨0, 0⟩

/-- Euclidean distance from the single-user line's world-space head to the
target point; the single-user handleKeyDown computes no such distance (it has
no spacing guard), the definition only serves to state the spec's spacing
condition over this variant. -/
def headDistanceSU (line : SULine) (target : Point) : ℝ :=
  let start := tailOffsetSU line
  let dx := target.x - (line.x + start.x)
  let dy := target.y - (line.y + start.y)
  Real.sqrt (dx * dx + dy * dy)

/-- Placement step of the single-user handleKeyDown: unconditionally append a
character LETTER_SPACING along the atan2 direction (offset (0,0) on an empty
line); every line whose id matches currentLineId receives the character. -/
def placeCharSU (newLineList : List SULine) (currentLineId : String) (currentLine : SULine)
    (target : Point) (charValue : String) (newCharId : String) : List SULine :=
  let start := tailOffsetSU currentLine
  let dx := target.x - (currentLine.x + start.x)
  let dy := target.y - (currentLine.y + start.y)
  let angle := atan2 dy dx
  let newCharX := start.x + Real.cos angle * LETTER_SPACING
  let newCharY := start.y + Real.sin angle * LETTER_SPACING
  let finalChar : Char := ⟨newCharId, charValue,
    if currentLine.chars.length = 0 then 0 else newCharX,
    if currentLine.chars.length = 0 then 0 else newCharY⟩
  newLineList.map (fun l => if l.id == currentLineId then { l with chars := l.chars ++ [finalChar] } else l)

/-- Typing a printable character in the single-user handleKeyDown variant:
no ownership, no spacing guard — a character is always placed. -/
def handleKeyDownCharSingle (prev : List SULine) (activeId : Option String) (target : Point)
    (charValue : String) (newLineId newCharId : String) : List SULine :=
  match activeId with
  | some aid =>
    match prev.find? (fun l => l.id == aid) with
    | some line => placeCharSU prev aid line target charValue newCharId
    | none =>
      let newLine := createLineSU newLineId target.x target.y
      placeCharSU (prev ++ [newLine]) newLineId newLine target charValue newCharId
  | none =>
    let newLine := createLineSU newLineId target.x target.y
    placeCharSU (prev ++ [newLine]) newLineId newLine target charValue newCharId

/-- Backspace in typing mode (multi-user handleKeyDown): truncate the active
line's last character if the line exists and is owned; remove the line
entirely (and clear the active pointer) when it becomes empty. -/
def handleBackspace (user : Option User) (curLines : List Line) (activeId : Option String) :
    StepResult :=
  match activeId with
  | some aid =>
    match curLines.find? (fun l => l.id == aid) with
    | some line =>
      if isOwn user line then
        let newChars := line.chars.dropLast
        if newChars.length = 0 then
          let newLines := curLines.filter (fun l => !(l.id == aid))
          { lines := newLines
            msgs := setLines user newLines ++ [ClientMsg.deleteLines [aid]]
            activeLineId := none }
        else
          let updatedLine := { line with chars := newChars }
          let newLines := curLines.map (fun l => if l.id == aid then updatedLine else l)
          { lines := newLines
            msgs := setLines user newLines ++ [ClientMsg.updateLine updatedLine]
            activeLineId := some aid }
      else { lines := curLines, msgs := [], activeLineId := some aid }
    | none => { lines := curLines, msgs := [], activeLineId := some aid }
  | none => { lines := curLines, msgs := [], activeLineId := none }

/-- Result of the navigation-mode delete: stored lines, outbound messages and
the (always cleared) selection. -/
structure NavDeleteResult where
  lines : List Line
  msgs : List ClientMsg
  selectedLineIds : List String

/-- Delete/Backspace in navigation mode (multi-user handleKeyDown): collect
the selected ids whose line exists and is owned by the current user, remove
exactly those, and clear the selection. -/
def handleNavigationDelete (user : Option User) (curLines : List Line)
    (selected : List String) : NavDeleteResult :=
  let toDelete := selected.filter (fun id =>
    match curLines.find? (fun l => l.id == id) with
    | some line => isOwn user line
    | none => false)
  if 0 < toDelete.length then
    let newLines := curLines.filter (fun l => !(toDelete.contains l.id))
    { lines := newLines
      msgs := setLines user newLines ++ [ClientMsg.deleteLines toDelete]
      selectedLineIds := [] }
  else
    { lines := curLines, msgs := [], selectedLineIds := [] }

/-- handleStageMouseMove of the multi-user TypeCanvas: while dragging in
navigation mode, relocate the dragged line to track the pointer — but only
when the line exists and is owned by the current user. -/
def handleStageMouseMove (mode : AppMode) (user : Option User) (curLines : List Line)
    (draggingLineId : Option String) (dragOffset : Point) (e : Point) :
    List Line × List ClientMsg :=
  match draggingLineId, mode with
  | some did, AppMode.NAVIGATION =>
    match curLines.find? (fun l => l.id == did) with
    | some line =>
      if isOwn user line then
        let updatedLine := { line with x := e.x - dragOffset.x, y := e.y - dragOffset.y }
        let newLines := curLines.map (fun l => if l.id == did then updatedLine else l)
        (newLines, setLines user newLines ++ [ClientMsg.updateLine updatedLine])
      else (curLines, [])
    | none => (curLines, [])
  | _, _ => (curLines, [])

/-- Typing-mode branch of handleLineMouseDown: clicking a line activates it
for continued typing only when it is owned by the current user. -/
def handleLineMouseDownTyping (user : Option User) (curLines : List Line)
    (activeId : Option String) (lineId : String) : Option String :=
  match curLines.find? (fun l => l.id == lineId) with
  | some line => if isOwn user line then some lineId else activeId
  | none => activeId

/-- handleMouseMove of the multi-user TypeCanvas: update the target and send
one cursor message. -/
def handleMouseMove (e : Point) : Point × List ClientMsg :=
  (e, [ClientMsg.cursor e])

/-- Client replica application of a rebroadcast updateLine message
(usePartySocket message handler): replace the matching line wholesale. -/
def applyServerUpdateLine (curLines : List Line) (line : Line) : List Line :=
  curLines.map (fun l => if l.id == line.id then line else l)

/-- COLORS palette of the authority. -/
def COLORS : List String :=
  ["#A6CEE3", "#1F78B4", "#B2DF8A", "#33A02C", "#FB9A99", "#E31A1C", "#FDBF6F"]

/-- FONT_SIZES palette of the authority. -/
def FONT_SIZES : List ℕ := [11, 18, 28]

/-- FONT_FAMILIES palette of the authority. -/
def FONT_FAMILIES : List String := ["Space Mono", "Playfair Display", "Inter"]

/-- randomChoice of the authority: pick an arbitrary element of the array;
the Math.random outcome is modelled by the index oracle k.  An empty array
yields none (JavaScript undefined). -/
def randomChoice {α : Type} (arr : List α) (k : ℕ) : Option α :=
  arr[k % arr.length]?

/-- getUnusedOrRandom of the authority: choose among the options not yet in
use when any exist, otherwise among all options. -/
def getUnusedOrRandom {α : Type} [DecidableEq α] (options used : List α) (k : ℕ) :
    Option α :=
  let unused := options.filter (fun opt => decide (opt ∉ used))
  if 0 < unused.length then randomChoice unused k else randomChoice options k

/-- Color assignment of TypeDrawServer.onConnect: distinct from the colors in
use while fewer participants than palette entries are present, uniformly
random otherwise. -/
def assignColor (users : List User) (k : ℕ) : Option String :=
  if users.length < COLORS.length then getUnusedOrRandom COLORS (users.map User.color) k
  else randomChoice COLORS k

/-- Font-family assignment of TypeDrawServer.onConnect. -/
def assignFontFamily (users : List User) (k : ℕ) : Option String :=
  if users.length < FONT_FAMILIES.length then
    getUnusedOrRandom FONT_FAMILIES (users.map User.fontFamily) k
  else randomChoice FONT_FAMILIES k

/-- Font-size assignment of TypeDrawServer.onConnect. -/
def assignFontSize (users : List User) (k : ℕ) : Option ℕ :=
  if users.length < FONT_SIZES.length then
    getUnusedOrRandom FONT_SIZES (users.map User.fontSize) k
  else randomChoice FONT_SIZES k

/-- TypeDrawServer.onMessage: apply one client message to the canonical room
state and return the broadcasts it fans out (each excluding the sender). -/
def serverOnMessage (st : RoomState) (senderId : String) (msg : ClientMsg) :
    RoomState × List Broadcast :=
  match msg with
  | ClientMsg.cursor c =>
    ({ st with users := st.users.map (fun u => if u.id == senderId then { u with cursor := c } else u) },
      [⟨ServerMsg.cursor senderId c, [senderId]⟩])
  | ClientMsg.addLine l =>
    ({ st with lines := st.lines ++ [l] }, [⟨ServerMsg.addLine l, [senderId]⟩])
  | ClientMsg.updateLine l =>
    ({ st with lines :=
        match st.lines.findIdx? (fun x => x.id == l.id) with
        | some i => st.lines.set i l
        | none => st.lines },
      [⟨ServerMsg.updateLine l, [senderId]⟩])
  | ClientMsg.deleteLines ids =>
    ({ st with lines := st.lines.filter (fun l => !(ids.contains l.id)) },
      [⟨ServerMsg.deleteLines ids, [senderId]⟩])
  | ClientMsg.lines ls =>
    let otherLines := st.lines.filter (fun l => !(l.userId == senderId))
    let userLines := ls.filter (fun l => l.userId == senderId)
    ({ st with lines := otherLines ++ userLines },
      [⟨ServerMsg.sync (otherLines ++ userLines), [senderId]⟩])

/-- The first-glyph invariant over a document: the first character of every
line sits at offset (0,0). -/
def firstGlyphZero (ls : List Line) : Prop :=
  ∀ l ∈ ls, ∀ c, l.chars.head? = some c → c.x = 0 ∧ c.y = 0

/-- Sample participant u1, used by concrete witnesses. -/
def u1 : User := ⟨"u1", "#A6CEE3", 11, "Inter", ⟨0, 0⟩⟩

/-- Sample line owned by u1 with one character at the origin. -/
def L1 : Line := ⟨"l1", [⟨"c1", "a", 0, 0⟩], 0, 0, "u1", "#A6CEE3", 11, "Inter"⟩

/-- Sample line owned by u1 with an empty character list. -/
def L1e : Line := ⟨"l1", [], 0, 0, "u1", "#A6CEE3", 11, "Inter"⟩

/-- Sample line owned by another participant u2. -/
def L2 : Line := ⟨"l2", [⟨"c2", "z", 0, 0⟩], 0, 0, "u2", "#1F78B4", 18, "Playfair Display"⟩

/-- Sample single-user-variant line with one character at the origin. -/
def L1su : SULine := ⟨"l1", [⟨"c1", "a", 0, 0⟩], 0, 0⟩

/-- Square-root bound: a < b * b with 0 < b gives sqrt a < b. -/
theorem sqrt_lt_of_lt_sq {a b : ℝ} (hb : 0 < b) (h : a < b * b) : Real.sqrt a < b := by
  have := (Real.sqrt_lt' hb (x := a)).mpr (by nlinarith)
  exact this

/-- Square-root bound: b * b ≤ a gives b ≤ sqrt a. -/
theorem le_sqrt_of_sq_le' {a b : ℝ} (h : b * b ≤ a) : b ≤ Real.sqrt a :=
  Real.le_sqrt_of_sq_le (by nlinarith)

/-- On the right half plane, atan2 is the arctangent of the slope. -/
theorem atan2_of_xpos {y x : ℝ} (hx : 0 < x) : atan2 y x = Real.arctan (y / x) := by
  simp [atan2, hx]

/-- Unfolding addCharToCanvas when the active line is found and owned. -/
theorem addCharToCanvas_owned (user : User) (curLines : List Line) (target : Point)
    (charValue : String) (aid nlid ncid : String) (line : Line)
    (hfind : curLines.find? (fun l => l.id == aid) = some line)
    (hown : line.userId = user.id) :
    addCharToCanvas (some user) curLines target charValue (some aid) nlid ncid =
      appendCharToLine (some user) curLines target charValue aid line ncid := by
  simp [addCharToCanvas, hfind, isOwn, hown]

/-- Unfolding the angle-snap character handler when the active line is found
and owned. -/
theorem handleKeyDownCharSnap_owned (user : User) (curLines : List Line) (target : Point)
    (charValue : String) (aid nlid ncid : String) (line : Line)
    (hfind : curLines.find? (fun l => l.id == aid) = some line)
    (hown : line.userId = user.id) :
    handleKeyDownCharSnap (some user) curLines target charValue (some aid) nlid ncid =
      appendCharToLineSnap (some user) curLines target charValue aid line ncid := by
  simp [handleKeyDownCharSnap, hfind, isOwn, hown]

/-- The first-glyph invariant survives starting a new line with its first
character. -/
theorem firstGlyphZero_startNew (user : Option User) (curLines : List Line) (target : Point)
    (charValue : String) (nlid ncid : String) (hinv : firstGlyphZero curLines) :
    firstGlyphZero (startNewLineWithChar user curLines target charValue nlid ncid).lines := by
  intro l hl c hc
  simp only [startNewLineWithChar] at hl
  rcases List.mem_append.mp hl with h | h
  · exact hinv l h c hc
  · simp only [List.mem_singleton] at h
    subst h
    simp only [List.head?] at hc
    cases hc
    exact ⟨rfl, rfl⟩

/-- The first-glyph invariant survives appending a character to an existing
line of the document. -/
theorem firstGlyphZero_append (user : Option User) (curLines : List Line) (target : Point)
    (charValue : String) (aid ncid : String) (line : Line)
    (hline : line ∈ curLines) (hinv : firstGlyphZero curLines) :
    firstGlyphZero (appendCharToLine user curLines target charValue aid line ncid).lines := by
  simp only [appendCharToLine]
  split
  · exact hinv
  · intro l hl c hc
    simp only [List.mem_map] at hl
    obtain ⟨m, hm, rfl⟩ := hl
    by_cases hid : (m.id == aid) = true
    · simp only [hid, if_true] at hc
      cases hcc : line.chars with
      | nil =>
        simp [hcc] at hc
        simp [← hc]
      | cons a as =>
        simp [hcc] at hc
        exact hc ▸ hinv line hline a (by simp [hcc])
    · simp only [hid, Bool.false_eq_true, if_false] at hc
      exact hinv m hm c hc

/-- C2: placing a character on a line with an empty character list assigns
offset (0,0); a fresh line's first character is created at offset (0,0); and
the first-glyph invariant is preserved by addCharToCanvas, so the first glyph
of every line of every reachable document sits at the line's origin
regardless of the target point. -/
theorem first_glyph_invariant :
    (∀ (user : User) (curLines : List Line) (target : Point) (key aid nlid ncid : String)
        (line : Line),
        curLines.find? (fun l => l.id == aid) = some line →
        line.userId = user.id →
        line.chars = [] →
        (addCharToCanvas (some user) curLines target key (some aid) nlid ncid).lines =
          curLines.map (fun l => if l.id == aid then { line with chars := [⟨ncid, key, 0, 0⟩] } else l))
    ∧ (∀ (user : Option User) (curLines : List Line) (target : Point) (key nlid ncid : String),
        (addCharToCanvas user curLines target key none nlid ncid).lines =
          curLines ++ [{ createLine nlid target.x target.y user with chars := [⟨ncid, key, 0, 0⟩] }])
    ∧ (∀ (user : Option User) (curLines : List Line) (target : Point) (key : String)
        (activeId : Option String) (nlid ncid : String),
        firstGlyphZero curLines →
        firstGlyphZero (addCharToCanvas user curLines target key activeId nlid ncid).lines) := by
  refine ⟨?_, ?_, ?_⟩
  · intro user curLines target key aid nlid ncid line hfind hown hchars
    rw [addCharToCanvas_owned user curLines target key aid nlid ncid line hfind hown]
    simp only [appendCharToLine]
    rw [if_neg (by simp [hchars])]
    simp [hchars]
  · intro user curLines target key nlid ncid
    simp [addCharToCanvas, startNewLineWithChar]
  · intro user curLines target key activeId nlid ncid hinv
    cases activeId with
    | none =>
      simp only [addCharToCanvas]
      exact firstGlyphZero_startNew user curLines target key nlid ncid hinv
    | some aid =>
      simp only [addCharToCanvas]
      cases hf : curLines.find? (fun l => l.id == aid) with
      | none => exact firstGlyphZero_startNew user curLines target key nlid ncid hinv
      | some line =>
        by_cases ho : isOwn user line = true
        · simp only [ho, if_true]
          exact firstGlyphZero_append user curLines target key aid ncid line
            (List.mem_of_find?_eq_some hf) hinv
        · simp only [if_neg ho]
          exact firstGlyphZero_startNew user curLines target key nlid ncid hinv

/-- C2 witness: a concrete placement on an empty-chars line yields offset
(0,0), and the invariant is preserved at a concrete document. -/
theorem first_glyph_invariant_witness :
    (addCharToCanvas (some u1) [L1e] ⟨50, 60⟩ "a" (some "l1") "nl" "nc").lines =
      [L1e].map (fun l => if l.id == "l1" then { L1e with chars := [⟨"nc", "a", 0, 0⟩] } else l)
    ∧ firstGlyphZero (addCharToCanvas (some u1) [L1] ⟨7, 8⟩ "b" (some "l1") "nl2" "nc2").lines :=
  ⟨first_glyph_invariant.1 u1 [L1e] ⟨50, 60⟩ "a" "l1" "nl" "nc" L1e rfl rfl rfl,
   first_glyph_invariant.2.2 (some u1) [L1] ⟨7, 8⟩ "b" (some "l1") "nl2" "nc2"
     (by
       intro l hl c hc
       simp only [List.mem_singleton] at hl
       subst hl
       simp [L1] at hc
       simp [← hc])⟩

/-- C1 (amended): in the multi-user client, a typed character whose owned
active line is non-empty and whose tail-to-target distance is below
LETTER_SPACING is skipped — both addCharToCanvas and the angle-snap variant
leave the lines unchanged, send no message and keep the active line; with no
active line the first character is always placed at offset (0,0).  The
single-user handleKeyDown variant has no spacing floor: a found active line
always receives one more character, whatever the distance. -/
theorem spacing_floor_skip (user : User) (curLines : List Line) (target : Point)
    (key aid nlid ncid : String) (line : Line)
    (hfind : curLines.find? (fun l => l.id == aid) = some line)
    (hown : line.userId = user.id)
    (hne : line.chars ≠ [])
    (hdist : headDistance line target < LETTER_SPACING) :
    addCharToCanvas (some user) curLines target key (some aid) nlid ncid =
      ⟨curLines, [], some aid⟩
    ∧ handleKeyDownCharSnap (some user) curLines target key (some aid) nlid ncid =
      ⟨curLines, [], some aid⟩
    ∧ (∀ nlid' ncid' : String,
        (addCharToCanvas (some user) curLines target key none nlid' ncid').lines =
          curLines ++ [{ createLine nlid' target.x target.y (some user) with chars := [⟨ncid', key, 0, 0⟩] }])
    ∧ (∀ (prev : List SULine) (aid' : String) (sl : SULine) (nlid' ncid' : String),
        prev.find? (fun l => l.id == aid') = some sl →
        (handleKeyDownCharSingle prev (some aid') target key nlid' ncid').map (fun l => l.chars.length) =
          prev.map (fun l => if l.id == aid' then l.chars.length + 1 else l.chars.length)) := by
  have hlen : 0 < line.chars.length := List.length_pos.mpr hne
  simp only [headDistance] at hdist
  refine ⟨?_, ?_, ?_, ?_⟩
  · rw [addCharToCanvas_owned user curLines target key aid nlid ncid line hfind hown]
    simp only [appendCharToLine]
    rw [if_pos ⟨hlen, hdist⟩]
  · rw [handleKeyDownCharSnap_owned user curLines target key aid nlid ncid line hfind hown]
    simp only [appendCharToLineSnap]
    rw [if_pos ⟨hlen, hdist⟩]
  · intro nlid' ncid'
    simp [addCharToCanvas, startNewLineWithChar]
  · intro prev aid' sl nlid' ncid' hf
    simp only [handleKeyDownCharSingle, hf, placeCharSU, List.map_map]
    refine List.map_congr_left ?_
    intro m _
    by_cases h : m.id = aid' <;> simp [h]

/-- C1 witness: at distance 5 < 12 from the tail of a concrete owned
one-character line, the typed character is skipped and nothing changes. -/
theorem spacing_floor_skip_witness :
    headDistance L1 ⟨3, 4⟩ < LETTER_SPACING ∧
    addCharToCanvas (some u1) [L1] ⟨3, 4⟩ "b" (some "l1") "nl" "nc" = ⟨[L1], [], some "l1"⟩ := by
  have hd : headDistance L1 ⟨3, 4⟩ < LETTER_SPACING := by
    simp only [headDistance, tailOffset, L1, LETTER_SPACING]
    norm_num
    exact sqrt_lt_of_lt_sq (by norm_num) (by norm_num)
  exact ⟨hd, (spacing_floor_skip u1 [L1] ⟨3, 4⟩ "b" "l1" "nl" "nc" L1 rfl rfl (by simp [L1]) hd).1⟩

/-- C1 counterexample: in the single-user variant a character typed at
distance 5 < LETTER_SPACING from the tail of the non-empty active line is
still placed — the document changes, refuting the claimed skip. -/
theorem spacing_floor_single_user_cex :
    headDistanceSU L1su ⟨3, 4⟩ < LETTER_SPACING ∧
    (handleKeyDownCharSingle [L1su] (some "l1") ⟨3, 4⟩ "b" "nl" "nc").map (fun l => l.chars.length) ≠
      [L1su].map (fun l => l.chars.length) := by
  constructor
  · simp only [headDistanceSU, tailOffsetSU, L1su, LETTER_SPACING]
    norm_num
    exact sqrt_lt_of_lt_sq (by norm_num) (by norm_num)
  · simp [handleKeyDownCharSingle, placeCharSU, L1su, List.find?]

/-- C3 (amended): a non-first character placed by addCharToCanvas gets offset
currentTailOffset + LETTER_SPACING * (cos a, sin a) with a = atan2(dy, dx)
taken from the tail-to-target vector; the angle-snap handleKeyDown variant
places with the same formula after a is passed through snapAngle, which
replaces angles within SNAP_THRESHOLD of horizontal by exactly 0 or PI, so
there the claim's unsnapped formula does not hold in general. -/
theorem glyph_placement_formula (user : User) (curLines : List Line) (target : Point)
    (key aid nlid ncid : String) (line : Line)
    (hfind : curLines.find? (fun l => l.id == aid) = some line)
    (hown : line.userId = user.id)
    (hne : line.chars ≠ [])
    (hdist : ¬ headDistance line target < LETTER_SPACING) :
    (addCharToCanvas (some user) curLines target key (some aid) nlid ncid).lines =
      curLines.map (fun l => if l.id == aid then
        { line with chars := line.chars ++ [⟨ncid, key,
            (tailOffset line).x + Real.cos (atan2 (target.y - (line.y + (tailOffset line).y))
              (target.x - (line.x + (tailOffset line).x))) * LETTER_SPACING,
            (tailOffset line).y + Real.sin (atan2 (target.y - (line.y + (tailOffset line).y))
              (target.x - (line.x + (tailOffset line).x))) * LETTER_SPACING⟩] }
        else l)
    ∧ (handleKeyDownCharSnap (some user) curLines target key (some aid) nlid ncid).lines =
      curLines.map (fun l => if l.id == aid then
        { line with chars := line.chars ++ [⟨ncid, key,
            (tailOffset line).x + Real.cos (snapAngle (atan2 (target.y - (line.y + (tailOffset line).y))
              (target.x - (line.x + (tailOffset line).x))) (target.x - (line.x + (tailOffset line).x))) * LETTER_SPACING,
            (tailOffset line).y + Real.sin (snapAngle (atan2 (target.y - (line.y + (tailOffset line).y))
              (target.x - (line.x + (tailOffset line).x))) (target.x - (line.x + (tailOffset line).x))) * LETTER_SPACING⟩] }
        else l) := by
  have hlen0 : ¬ line.chars.length = 0 := by simpa [List.length_eq_zero] using hne
  simp only [headDistance] at hdist
  constructor
  · rw [addCharToCanvas_owned user curLines target key aid nlid ncid line hfind hown]
    simp only [appendCharToLine]
    rw [if_neg]
    · simp only [if_neg hlen0]
    · rintro ⟨-, h2⟩
      exact hdist h2
  · rw [handleKeyDownCharSnap_owned user curLines target key aid nlid ncid line hfind hown]
    simp only [appendCharToLineSnap]
    rw [if_neg]
    · simp only [if_neg hlen0]
    · rintro ⟨-, h2⟩
      exact hdist h2

/-- C3 witness: a concrete placement far from the tail, with both variants
evaluated at the same input. -/
theorem glyph_placement_formula_witness :
    ¬ headDistance L1 ⟨100, 0⟩ < LETTER_SPACING ∧
    (addCharToCanvas (some u1) [L1] ⟨100, 0⟩ "b" (some "l1") "nl" "nc").lines =
      [L1].map (fun l => if l.id == "l1" then
        { L1 with chars := L1.chars ++ [⟨"nc", "b",
            (tailOffset L1).x + Real.cos (atan2 ((0 : ℝ) - (L1.y + (tailOffset L1).y))
              ((100 : ℝ) - (L1.x + (tailOffset L1).x))) * LETTER_SPACING,
            (tailOffset L1).y + Real.sin (atan2 ((0 : ℝ) - (L1.y + (tailOffset L1).y))
              ((100 : ℝ) - (L1.x + (tailOffset L1).x))) * LETTER_SPACING⟩] }
        else l) := by
  have hd : ¬ headDistance L1 ⟨100, 0⟩ < LETTER_SPACING := by
    simp only [headDistance, tailOffset, L1, LETTER_SPACING]
    norm_num
    exact le_sqrt_of_sq_le' (by norm_num)
  exact ⟨hd, (glyph_placement_formula u1 [L1] ⟨100, 0⟩ "b" "l1" "nl" "nc" L1 rfl rfl
    (by simp [L1]) hd).1⟩

/-- C3 counterexample: with the tail at the origin and the target at
(100, 10), the angle atan2(10, 100) is within SNAP_THRESHOLD of horizontal,
so the angle-snap variant places the new character at y-offset 0, while the
claim's formula demands y-offset sin(atan2(10,100)) * LETTER_SPACING > 0. -/
theorem glyph_placement_snap_cex :
    ((handleKeyDownCharSnap (some u1) [L1] ⟨100, 10⟩ "b" (some "l1") "nl" "nc").lines.map
        (fun l => l.chars.map Char.y)) ≠
      [[0, (tailOffset L1).y + Real.sin (atan2 ((10 : ℝ) - (L1.y + (tailOffset L1).y))
        ((100 : ℝ) - (L1.x + (tailOffset L1).x))) * LETTER_SPACING]] := by
  have h0 : (0 : ℝ) < 10 / 100 := by norm_num
  have hpos : 0 < Real.arctan (10 / 100) := by
    have h := Real.arctan_strictMono h0
    simpa [Real.arctan_zero] using h
  have harc : Real.arctan (10 / 100) < Real.pi / 12 := by
    have hlt2 : Real.arctan (10 / 100) < Real.pi / 2 := Real.arctan_lt_pi_div_two _
    have h1 : Real.arctan (10 / 100) < 10 / 100 := by
      have h2 := Real.lt_tan hpos hlt2
      rwa [Real.tan_arctan] at h2
    nlinarith [Real.pi_gt_three]
  have hsnap : |atan2 (10 : ℝ) 100| < SNAP_THRESHOLD := by
    rw [atan2_of_xpos (by norm_num), abs_of_pos]
    · simpa [SNAP_THRESHOLD] using harc
    · simpa using hpos
  have hsin : Real.sin (atan2 (10 : ℝ) 100) ≠ 0 := by
    rw [atan2_of_xpos (by norm_num), Real.sin_arctan]
    positivity
  have hguard : ¬ Real.sqrt (10100 : ℝ) < LETTER_SPACING := by
    simp only [LETTER_SPACING]
    norm_num
    exact le_sqrt_of_sq_le' (by norm_num)
  rw [handleKeyDownCharSnap_owned u1 [L1] ⟨100, 10⟩ "b" "l1" "nl" "nc" L1 rfl rfl]
  simp only [appendCharToLineSnap, tailOffset, L1]
  norm_num
  rw [if_neg hguard]
  have hsnap0 : snapAngle (atan2 10 100) 100 = 0 := by simp [snapAngle, hsnap]
  rw [hsnap0]
  simp only [Real.sin_zero, zero_mul, List.map_cons, List.map_nil]
  intro h
  apply hsin
  have h' : (0 : ℝ) = Real.sin (atan2 10 100) * LETTER_SPACING := by
    simpa using h
  have hL : (LETTER_SPACING : ℝ) ≠ 0 := by norm_num [LETTER_SPACING]
  rcases mul_eq_zero.mp h'.symm with h'' | h''
  · exact h''
  · exact absurd h'' hL

/-- In a document whose line ids are pairwise distinct, find? by a member's
id returns that member. -/
theorem find?_id_of_nodup (ls : List Line) (hnd : (ls.map Line.id).Nodup) (l : Line)
    (hl : l ∈ ls) : ls.find? (fun m => m.id == l.id) = some l := by
  induction ls with
  | nil => cases hl
  | cons a as ih =>
    rw [List.map_cons] at hnd
    obtain ⟨hna, hnd'⟩ := List.nodup_cons.mp hnd
    rcases List.mem_cons.mp hl with rfl | h
    · simp [List.find?]
    · have hne : (a.id == l.id) = false := by
        apply beq_eq_false_iff_ne.mpr
        intro hcontra
        exact hna (hcontra ▸ List.mem_map_of_mem Line.id h)
      rw [List.find?_cons_of_neg _ (by simp [hne])]
      exact ih hnd' h

/-- Characterization of the navigation-mode delete on a document with
pairwise distinct line ids: exactly the selected lines owned by the current
user are removed. -/
theorem handleNavigationDelete_lines (user : User) (curLines : List Line)
    (selected : List String) (hnd : (curLines.map Line.id).Nodup) :
    (handleNavigationDelete (some user) curLines selected).lines =
      curLines.filter (fun l => !(selected.contains l.id && l.userId == user.id)) := by
  have key : ∀ l ∈ curLines,
      (l.id ∈ selected.filter (fun id =>
        match curLines.find? (fun m => m.id == id) with
        | some line => isOwn (some user) line
        | none => false) ↔ (l.id ∈ selected ∧ l.userId = user.id)) := by
    intro l hl
    rw [List.mem_filter]
    constructor
    · rintro ⟨h1, h2⟩
      rw [find?_id_of_nodup curLines hnd l hl] at h2
      exact ⟨h1, by simpa [isOwn] using h2⟩
    · rintro ⟨h1, h2⟩
      refine ⟨h1, ?_⟩
      rw [find?_id_of_nodup curLines hnd l hl]
      simpa [isOwn] using h2
  simp only [handleNavigationDelete]
  split
  · apply List.filter_congr
    intro l hl
    rw [Bool.not_inj_iff, Bool.eq_iff_iff]
    simp only [List.contains, List.elem_iff, Bool.and_eq_true, beq_iff_eq]
    exact key l hl
  · next hlen =>
    have hempty := List.length_eq_zero.mp (Nat.eq_zero_of_not_pos hlen)
    refine (List.filter_eq_self.mpr ?_).symm
    intro l hl
    cases hb : (selected.contains l.id && l.userId == user.id) with
    | false => rfl
    | true =>
      exfalso
      have hprop : l.id ∈ selected ∧ l.userId = user.id := by
        simpa [List.contains, List.elem_iff] using hb
      have hmem := (key l hl).mpr hprop
      rw [hempty] at hmem
      simp at hmem

/-- C4: backspacing the active owned line removes its last character; when
the line had exactly one character the whole line is removed (no zero-glyph
line remains) and the active-line pointer is cleared, and when it had more
only the tail character is dropped with every other field unchanged. -/
theorem truncate_last_glyph_elision (user : User) (curLines : List Line) (aid : String)
    (line : Line)
    (hfind : curLines.find? (fun l => l.id == aid) = some line)
    (hown : line.userId = user.id) :
    (line.chars.length = 1 →
      handleBackspace (some user) curLines (some aid) =
        ⟨curLines.filter (fun l => !(l.id == aid)),
         setLines (some user) (curLines.filter (fun l => !(l.id == aid))) ++
           [ClientMsg.deleteLines [aid]],
         none⟩
      ∧ ∀ l ∈ (handleBackspace (some user) curLines (some aid)).lines, l.id ≠ aid)
    ∧ (1 < line.chars.length →
      handleBackspace (some user) curLines (some aid) =
        ⟨curLines.map (fun l => if l.id == aid then { line with chars := line.chars.dropLast } else l),
         setLines (some user)
             (curLines.map (fun l => if l.id == aid then { line with chars := line.chars.dropLast } else l)) ++
           [ClientMsg.updateLine { line with chars := line.chars.dropLast }],
         some aid⟩) := by
  have hob : isOwn (some user) line = true := by simp [isOwn, hown]
  constructor
  · intro h1
    have hd : line.chars.dropLast.length = 0 := by simp [List.length_dropLast, h1]
    have heq : handleBackspace (some user) curLines (some aid) =
        ⟨curLines.filter (fun l => !(l.id == aid)),
         setLines (some user) (curLines.filter (fun l => !(l.id == aid))) ++
           [ClientMsg.deleteLines [aid]],
         none⟩ := by
      simp only [handleBackspace, hfind, hob, if_true]
      rw [if_pos hd]
    refine ⟨heq, ?_⟩
    rw [heq]
    intro l hl hcontra
    have h2 := (List.mem_filter.mp hl).2
    simp [hcontra] at h2
  · intro h1
    have hd : ¬ line.chars.dropLast.length = 0 := by
      simp only [List.length_dropLast]
      omega
    simp only [handleBackspace, hfind, hob, if_true]
    rw [if_neg hd]

/-- C4 witness: backspace on a concrete one-character owned line removes the
line and clears the active pointer. -/
theorem truncate_last_glyph_elision_witness :
    handleBackspace (some u1) [L1] (some "l1") =
      ⟨[L1].filter (fun l => !(l.id == "l1")),
       setLines (some u1) ([L1].filter (fun l => !(l.id == "l1"))) ++
         [ClientMsg.deleteLines ["l1"]],
       none⟩ :=
  ((truncate_last_glyph_elision u1 [L1] "l1" L1 rfl rfl).1 (by simp [L1])).1

/-- C5: the controller's mutations stay on the participant's own lines —
dragging a line owned by someone else is a no-op with no message, the
navigation delete removes exactly the selected own lines (others are
silently skipped), backspace on a foreign line changes nothing, and clicking
a foreign line in typing mode does not activate it. -/
theorem cooperative_ownership :
    (∀ (user : User) (curLines : List Line) (did : String) (dragOffset e : Point) (line : Line),
        curLines.find? (fun l => l.id == did) = some line →
        line.userId ≠ user.id →
        handleStageMouseMove AppMode.NAVIGATION (some user) curLines (some did) dragOffset e =
          (curLines, []))
    ∧ (∀ (user : User) (curLines : List Line) (selected : List String),
        (curLines.map Line.id).Nodup →
        (handleNavigationDelete (some user) curLines selected).lines =
          curLines.filter (fun l => !(selected.contains l.id && l.userId == user.id)))
    ∧ (∀ (user : User) (curLines : List Line) (aid : String) (line : Line),
        curLines.find? (fun l => l.id == aid) = some line →
        line.userId ≠ user.id →
        handleBackspace (some user) curLines (some aid) = ⟨curLines, [], some aid⟩)
    ∧ (∀ (user : User) (curLines : List Line) (activeId : Option String) (lineId : String)
        (line : Line),
        curLines.find? (fun l => l.id == lineId) = some line →
        line.userId ≠ user.id →
        handleLineMouseDownTyping (some user) curLines activeId lineId = activeId) := by
  refine ⟨?_, ?_, ?_, ?_⟩
  · intro user curLines did dragOffset e line hfind hneq
    have hno : isOwn (some user) line = false := by simp [isOwn, hneq]
    simp [handleStageMouseMove, hfind, hno]
  · intro user curLines selected hnd
    exact handleNavigationDelete_lines user curLines selected hnd
  · intro user curLines aid line hfind hneq
    have hno : isOwn (some user) line = false := by simp [isOwn, hneq]
    simp [handleBackspace, hfind, hno]
  · intro user curLines activeId lineId line hfind hneq
    have hno : isOwn (some user) line = false := by simp [isOwn, hneq]
    simp [handleLineMouseDownTyping, hfind, hno]

/-- C5 witness: at a concrete two-line document, the foreign-line drag,
backspace and activation are no-ops and the delete keeps the foreign line. -/
theorem cooperative_ownership_witness :
    handleStageMouseMove AppMode.NAVIGATION (some u1) [L2] (some "l2") ⟨0, 0⟩ ⟨5, 5⟩ = ([L2], [])
    ∧ (handleNavigationDelete (some u1) [L1, L2] ["l1", "l2"]).lines =
        [L1, L2].filter (fun l => !((["l1", "l2"].contains l.id) && l.userId == u1.id))
    ∧ handleBackspace (some u1) [L2] (some "l2") = ⟨[L2], [], some "l2"⟩
    ∧ handleLineMouseDownTyping (some u1) [L2] none "l2" = none :=
  ⟨cooperative_ownership.1 u1 [L2] "l2" ⟨0, 0⟩ ⟨5, 5⟩ L2 rfl (by decide),
   cooperative_ownership.2.1 u1 [L1, L2] ["l1", "l2"] (by decide),
   cooperative_ownership.2.2.1 u1 [L2] "l2" L2 rfl (by decide),
   cooperative_ownership.2.2.2 u1 [L2] none "l2" L2 rfl (by decide)⟩

/-- Filtering twice with a predicate implied by the first changes nothing. -/
theorem filter_filter_of_imp {α : Type} (p q : α → Bool) (h : ∀ a, p a = true → q a = true)
    (xs : List α) : (xs.filter p).filter q = xs.filter p := by
  induction xs with
  | nil => rfl
  | cons a as ih =>
    by_cases hp : p a = true
    · simp [List.filter_cons, hp, h a hp, ih]
    · simp [List.filter_cons, hp, ih]

/-- Filtering with a predicate excluded by the first empties the list. -/
theorem filter_filter_of_excl {α : Type} (p q : α → Bool) (h : ∀ a, p a = true → q a = false)
    (xs : List α) : (xs.filter p).filter q = [] := by
  induction xs with
  | nil => rfl
  | cons a as ih =>
    by_cases hp : p a = true
    · simp [List.filter_cons, hp, h a hp, ih]
    · simp [List.filter_cons, hp, ih]

/-- C6: processing a bulk own-lines resync from sender s replaces exactly the
canonical lines owned by s with the supplied lines owned by s, leaves every
line of other owners unchanged, leaves the roster unchanged, and broadcasts
the resulting full line set as a sync message to everyone but s. -/
theorem bulk_resync_frame (st : RoomState) (s : String) (supplied : List Line) :
    ((serverOnMessage st s (ClientMsg.lines supplied)).1).lines.filter (fun l => l.userId == s) =
      supplied.filter (fun l => l.userId == s)
    ∧ ((serverOnMessage st s (ClientMsg.lines supplied)).1).lines.filter (fun l => !(l.userId == s)) =
      st.lines.filter (fun l => !(l.userId == s))
    ∧ ((serverOnMessage st s (ClientMsg.lines supplied)).1).users = st.users
    ∧ (serverOnMessage st s (ClientMsg.lines supplied)).2 =
      [⟨ServerMsg.sync ((serverOnMessage st s (ClientMsg.lines supplied)).1).lines, [s]⟩] := by
  refine ⟨?_, ?_, rfl, rfl⟩
  · simp only [serverOnMessage, List.filter_append]
    rw [filter_filter_of_excl (fun l => !(l.userId == s)) (fun l => l.userId == s)
        (fun a ha => by simpa using ha) st.lines,
      filter_filter_of_imp (fun l => l.userId == s) (fun l => l.userId == s)
        (fun a ha => ha) supplied]
    simp
  · simp only [serverOnMessage, List.filter_append]
    rw [filter_filter_of_imp (fun l => !(l.userId == s)) (fun l => !(l.userId == s))
        (fun a ha => ha) st.lines,
      filter_filter_of_excl (fun l => l.userId == s) (fun l => !(l.userId == s))
        (fun a ha => by simpa using ha) supplied]
    simp

/-- The setLines wrapper emits at most one message. -/
theorem setLines_length_le (user : Option User) (newLines : List Line) :
    (setLines user newLines).length ≤ 1 := by
  cases user <;> simp [setLines]

/-- A setLines resync followed by one operation message is at most two
messages. -/
theorem setLines_append_one_le (user : Option User) (xs : List Line) (m : ClientMsg) :
    (setLines user xs ++ [m]).length ≤ 2 := by
  cases user <;> simp [setLines]

/-- addCharToCanvas emits at most two messages. -/
theorem addCharToCanvas_msgs_le (user : Option User) (curLines : List Line) (target : Point)
    (key : String) (activeId : Option String) (nlid ncid : String) :
    (addCharToCanvas user curLines target key activeId nlid ncid).msgs.length ≤ 2 := by
  cases activeId with
  | none => exact setLines_append_one_le _ _ _
  | some aid =>
    simp only [addCharToCanvas]
    cases hf : curLines.find? (fun l => l.id == aid) with
    | none => exact setLines_append_one_le _ _ _
    | some line =>
      by_cases ho : isOwn user line = true
      · simp only [ho, if_true, appendCharToLine]
        split
        · simp
        · exact setLines_append_one_le _ _ _
      · simp only [if_neg ho]
        exact setLines_append_one_le _ _ _

/-- The angle-snap character handler emits at most two messages. -/
theorem handleKeyDownCharSnap_msgs_le (user : Option User) (curLines : List Line) (target : Point)
    (key : String) (activeId : Option String) (nlid ncid : String) :
    (handleKeyDownCharSnap user curLines target key activeId nlid ncid).msgs.length ≤ 2 := by
  cases activeId with
  | none => exact setLines_append_one_le _ _ _
  | some aid =>
    simp only [handleKeyDownCharSnap]
    cases hf : curLines.find? (fun l => l.id == aid) with
    | none => exact setLines_append_one_le _ _ _
    | some line =>
      by_cases ho : isOwn user line = true
      · simp only [ho, if_true, appendCharToLineSnap]
        split
        · simp
        · exact setLines_append_one_le _ _ _
      · simp only [if_neg ho]
        exact setLines_append_one_le _ _ _

/-- The backspace handler emits at most two messages. -/
theorem handleBackspace_msgs_le (user : Option User) (curLines : List Line)
    (activeId : Option String) :
    (handleBackspace user curLines activeId).msgs.length ≤ 2 := by
  cases activeId with
  | none => simp [handleBackspace]
  | some aid =>
    simp only [handleBackspace]
    cases hf : curLines.find? (fun l => l.id == aid) with
    | none => simp
    | some line =>
      by_cases ho : isOwn user line = true
      · simp only [ho, if_true]
        split
        · exact setLines_append_one_le _ _ _
        · exact setLines_append_one_le _ _ _
      · simp only [if_neg ho]
        simp

/-- The navigation delete emits at most two messages. -/
theorem handleNavigationDelete_msgs_le (user : Option User) (curLines : List Line)
    (selected : List String) :
    (handleNavigationDelete user curLines selected).msgs.length ≤ 2 := by
  simp only [handleNavigationDelete]
  split
  · exact setLines_append_one_le _ _ _
  · simp

/-- The drag handler emits at most two messages. -/
theorem handleStageMouseMove_msgs_le (mode : AppMode) (user : Option User)
    (curLines : List Line) (draggingLineId : Option String) (dragOffset e : Point) :
    ((handleStageMouseMove mode user curLines draggingLineId dragOffset e).2).length ≤ 2 := by
  cases draggingLineId with
  | none => cases mode <;> simp [handleStageMouseMove]
  | some did =>
    cases mode with
    | TYPING => simp [handleStageMouseMove]
    | NAVIGATION =>
      simp only [handleStageMouseMove]
      cases hf : curLines.find? (fun l => l.id == did) with
      | none => simp
      | some line =>
        by_cases ho : isOwn user line = true
        · simp only [ho, if_true]
          exact setLines_append_one_le _ _ _
        · simp only [if_neg ho]
          simp

/-- C7 (amended): every embedded input-event handler of the Local Session
Controller is a pure synchronous function of the current local state and
emits at most TWO outbound messages — the bulk own-lines resync sent by the
setLines wrapper plus the per-operation message. -/
theorem at_most_two_messages :
    (∀ (user : Option User) (curLines : List Line) (target : Point) (key : String)
        (activeId : Option String) (nlid ncid : String),
        (addCharToCanvas user curLines target key activeId nlid ncid).msgs.length ≤ 2)
    ∧ (∀ (user : Option User) (curLines : List Line) (target : Point) (key : String)
        (activeId : Option String) (nlid ncid : String),
        (handleKeyDownCharSnap user curLines target key activeId nlid ncid).msgs.length ≤ 2)
    ∧ (∀ (user : Option User) (curLines : List Line) (activeId : Option String),
        (handleBackspace user curLines activeId).msgs.length ≤ 2)
    ∧ (∀ (user : Option User) (curLines : List Line) (selected : List String),
        (handleNavigationDelete user curLines selected).msgs.length ≤ 2)
    ∧ (∀ (mode : AppMode) (user : Option User) (curLines : List Line)
        (draggingLineId : Option String) (dragOffset e : Point),
        ((handleStageMouseMove mode user curLines draggingLineId dragOffset e).2).length ≤ 2)
    ∧ (∀ e : Point, ((handleMouseMove e).2).length ≤ 2) :=
  ⟨addCharToCanvas_msgs_le, handleKeyDownCharSnap_msgs_le, handleBackspace_msgs_le,
   handleNavigationDelete_msgs_le, handleStageMouseMove_msgs_le, fun e => by simp [handleMouseMove]⟩

/-- C7 counterexample: with a connected user, one typed character starting a
new line sends two messages (the setLines bulk resync plus addLine), so the
claimed bound of at most one outbound message per input event is false. -/
theorem two_messages_per_keystroke_cex :
    ¬ ((addCharToCanvas (some u1) [] ⟨0, 0⟩ "a" none "n1" "n2").msgs.length ≤ 1) := by
  simp [addCharToCanvas, startNewLineWithChar, setLines]

/-- C8: an updateLine naming an id absent from the receiving document is a
silent no-op — the authority's whole room state is unchanged and a client
replica applying the rebroadcast keeps its line list unchanged. -/
theorem stale_update_noop (st : RoomState) (s : String) (l : Line) (replica : List Line)
    (hs : ∀ m ∈ st.lines, m.id ≠ l.id) (hr : ∀ m ∈ replica, m.id ≠ l.id) :
    (serverOnMessage st s (ClientMsg.updateLine l)).1 = st
    ∧ applyServerUpdateLine replica l = replica := by
  constructor
  · simp only [serverOnMessage]
    rw [List.findIdx?_eq_none_iff.mpr (fun x hx => by simp [hs x hx])]
  · simp only [applyServerUpdateLine]
    have h : ∀ m ∈ replica, (if m.id == l.id then l else m) = m :=
      fun m hm => if_neg (by simp [hr m hm])
    rw [List.map_congr_left h, List.map_id']

/-- C8 witness: a concrete stale updateLine leaves a concrete room state and
a concrete replica untouched. -/
theorem stale_update_noop_witness :
    (serverOnMessage ⟨[u1], [L1]⟩ "u1" (ClientMsg.updateLine L2)).1 = ⟨[u1], [L1]⟩
    ∧ applyServerUpdateLine [L1] L2 = [L1] :=
  stale_update_noop ⟨[u1], [L1]⟩ "u1" L2 [L1]
    (by intro m hm; rcases List.mem_singleton.mp hm with rfl; decide)
    (by intro m hm; rcases List.mem_singleton.mp hm with rfl; decide)

/-- C10: the authority rebroadcasts every updateLine message to all
connections except the sender, whether or not the named line exists in the
canonical document — the broadcast does not depend on the state change. -/
theorem stale_update_rebroadcast (st : RoomState) (s : String) (l : Line) :
    (serverOnMessage st s (ClientMsg.updateLine l)).2 = [⟨ServerMsg.updateLine l, [s]⟩] := rfl

/-- Choosing among the unused options succeeds and avoids every used value
whenever fewer values are used than distinct options exist. -/
theorem getUnusedOrRandom_spec {α : Type} [DecidableEq α] (options used : List α) (k : ℕ)
    (hnd : options.Nodup) (hlt : used.length < options.length) :
    ∃ a, getUnusedOrRandom options used k = some a ∧ a ∉ used := by
  simp only [getUnusedOrRandom]
  set unused := options.filter (fun opt => decide (opt ∉ used)) with hu
  have hne : unused ≠ [] := by
    intro hnil
    have hsub : ∀ o ∈ options, o ∈ used := by
      intro o ho
      by_contra hnot
      have hmem : o ∈ unused := by
        rw [hu, List.mem_filter]
        exact ⟨ho, by simpa using hnot⟩
      rw [hnil] at hmem
      simp at hmem
    have h1 : options.toFinset ⊆ used.toFinset := by
      intro o ho
      exact List.mem_toFinset.mpr (hsub o (List.mem_toFinset.mp ho))
    have h2 : options.toFinset.card = options.length := List.toFinset_card_of_nodup hnd
    have h3 : used.toFinset.card ≤ used.length := used.toFinset_card_le
    have h4 := Finset.card_le_card h1
    omega
  have hlen : 0 < unused.length := List.length_pos.mpr hne
  rw [if_pos hlen]
  have hidx : k % unused.length < unused.length := Nat.mod_lt _ hlen
  refine ⟨unused[k % unused.length], ?_, ?_⟩
  · simp [randomChoice, List.getElem?_eq_getElem hidx]
  · have hmem : unused[k % unused.length] ∈ unused := List.getElem_mem hidx
    have hp := List.of_mem_filter (p := fun opt => decide (opt ∉ used)) hmem
    simpa using hp

/-- C9: on join, for each style axis independently, while strictly fewer
participants than palette entries are present the assigned value differs
from every value in use on that axis, for any outcome of the random choice;
at or beyond the palette size the assignment is a random choice over the
whole palette. -/
theorem join_style_distinct (users : List User) (kc kf ks : ℕ) :
    ((users.length < COLORS.length →
        ∃ c, assignColor users kc = some c ∧ c ∉ users.map User.color)
      ∧ (COLORS.length ≤ users.length → assignColor users kc = randomChoice COLORS kc))
    ∧ ((users.length < FONT_FAMILIES.length →
        ∃ f, assignFontFamily users kf = some f ∧ f ∉ users.map User.fontFamily)
      ∧ (FONT_FAMILIES.length ≤ users.length →
        assignFontFamily users kf = randomChoice FONT_FAMILIES kf))
    ∧ ((users.length < FONT_SIZES.length →
        ∃ n, assignFontSize users ks = some n ∧ n ∉ users.map User.fontSize)
      ∧ (FONT_SIZES.length ≤ users.length →
        assignFontSize users ks = randomChoice FONT_SIZES ks)) := by
  refine ⟨⟨?_, ?_⟩, ⟨?_, ?_⟩, ⟨?_, ?_⟩⟩
  · intro hlt
    rw [assignColor, if_pos hlt]
    exact getUnusedOrRandom_spec COLORS (users.map User.color) kc (by decide)
      (by simpa using hlt)
  · intro hge
    rw [assignColor, if_neg (by omega)]
  · intro hlt
    rw [assignFontFamily, if_pos hlt]
    exact getUnusedOrRandom_spec FONT_FAMILIES (users.map User.fontFamily) kf (by decide)
      (by simpa using hlt)
  · intro hge
    rw [assignFontFamily, if_neg (by omega)]
  · intro hlt
    rw [assignFontSize, if_pos hlt]
    exact getUnusedOrRandom_spec FONT_SIZES (users.map User.fontSize) ks (by decide)
      (by simpa using hlt)
  · intro hge
    rw [assignFontSize, if_neg (by omega)]

/-- C9 witness: with one participant present, each axis assignment avoids the
value in use, for the concrete random outcome 0. -/
theorem join_style_distinct_witness :
    (∃ c, assignColor [u1] 0 = some c ∧ c ∉ [u1].map User.color)
    ∧ (∃ f, assignFontFamily [u1] 0 = some f ∧ f ∉ [u1].map User.fontFamily)
    ∧ (∃ n, assignFontSize [u1] 0 = some n ∧ n ∉ [u1].map User.fontSize) :=
  ⟨(join_style_distinct [u1] 0 0 0).1.1 (by decide),
   (join_style_distinct [u1] 0 0 0).2.1.1 (by decide),
   (join_style_distinct [u1] 0 0 0).2.2.1 (by decide)⟩

end

end TypeDraw
